import Mathlib

/-!
Verification development for `ytmusic_playlist_creator.py`.

The Python source is shallowly embedded below:

* `extract_headers_from_curl` (source lines 36-125) is modelled as a pure
  function from the capture-file content to `Option HMap`; the file read at
  the top of the Python function is performed by the caller model
  (`setup_ytmusic`), and an I/O failure during that read — which the Python
  function catches, returning `None` — is modelled by the oracle flag
  `World.pasteReadFails`.
* `read_setlist_from_file` (source lines 192-225) is modelled on the list of
  lines returned by `readlines()`.
* `create_playlist_from_setlist` (source lines 127-190) is modelled against
  an oracle `Env` for the remote API (`create_playlist`, `search`,
  `add_playlist_items`); calls that can raise are `Except`-valued.  The
  function's console output and outgoing API calls are recorded as an
  ordered event trace `List Ev` so that "printed" and "performed" are
  observable.
* `setup_ytmusic` (source lines 11-34) is modelled over a `World` holding the
  optional `paste.txt` content and the current `headers_auth.json` artifact.

Python `str` values are modelled as `String` / `List Char`; `dict` as an
insertion-ordered association list with overwriting insertion (`insertH`),
which matches Python `dict` assignment and `in` / `[...]` lookup.
-/

/-- The single-quote character, written via its code point. -/
def squo : Char := Char.ofNat 39

/-- The double-quote character. -/
def dquo : Char := Char.ofNat 34

/-- The backslash character (Python `'\\'`, the split separator at line 43). -/
def bslash : Char := Char.ofNat 92

/-- Python `s.split(sep)` for a one-character separator. -/
def splitOnChar : List Char → Char → List (List Char)
  | [], _ => [[]]
  | c :: rest, sep =>
    let r := splitOnChar rest sep
    if c == sep then [] :: r
    else
      match r with
      | [] => [[c]]
      | h :: t => (c :: h) :: t

/-- Whitespace as stripped by Python `str.strip()` (ASCII subset). -/
def isWs (c : Char) : Bool :=
  c == ' ' || c == '\t' || c == '\n' || c == '\r' || c == Char.ofNat 11 || c == Char.ofNat 12

/-- Python `s.strip()` on a character list. -/
def trimChars (l : List Char) : List Char :=
  ((l.dropWhile isWs).reverse.dropWhile isWs).reverse

/-- Python `s.strip()` on a `String`. -/
def strTrim (s : String) : String :=
  String.mk (trimChars s.toList)

/-- Does `pat` occur at the head of `l`? -/
def headMatches : List Char → List Char → Bool
  | [], _ => true
  | _ :: _, [] => false
  | p :: ps, c :: cs => p == c && headMatches ps cs

/-- Helper for `findSub`: first index `≥ i` (in the original list) at which
`pat` occurs, scanning `l`. -/
def findSubFrom : List Char → List Char → Nat → Option Nat
  | [], pat, i => if headMatches pat [] then some i else none
  | c :: rest, pat, i =>
    if headMatches pat (c :: rest) then some i else findSubFrom rest pat (i + 1)

/-- Python `s.find(pat)` restricted to found/not-found: index of the first
occurrence of `pat` in `l`, if any. -/
def findSub (l pat : List Char) : Option Nat :=
  findSubFrom l pat 0

/-- Python `pat in s` (substring containment). -/
def containsSub (l pat : List Char) : Bool :=
  (findSub l pat).isSome

/-- Python `s.find(ch, start)`: index of the first occurrence of the
character `ch` at position `≥ start`, if any. -/
def findCharFrom (l : List Char) (ch : Char) (start : Nat) : Option Nat :=
  match (l.drop start).findIdx? (fun x => x == ch) with
  | none => none
  | some j => some (start + j)

/-- Python `ch in s` for a single character. -/
def containsChar (l : List Char) (ch : Char) : Bool :=
  l.any (fun x => x == ch)

/-- Python `s.split(ch, 1)` under the guarantee that `ch` occurs: the parts
before and after the first occurrence of `ch`. -/
def splitFirstColon : List Char → List Char × List Char
  | [] => ([], [])
  | c :: rest =>
    if c == ':' then ([], rest)
    else
      let r := splitFirstColon rest
      (c :: r.1, r.2)

/-- Python `line.startswith(str-of-one-char)`: first character equals `ch`. -/
def startsWithChar (l : List Char) (ch : Char) : Bool :=
  match l with
  | [] => false
  | c :: _ => c == ch

/-- Python `key.lower()` on a character list (ASCII model, per-character
`Char.toLower`). -/
def strToLowerL (l : List Char) : List Char :=
  l.map Char.toLower

/-- The Header Map: insertion-ordered association list, keys unique. -/
abbrev HMap := List (String × String)

/-- Python `headers[k] = v`: overwrite the binding for `k` in place if
present, otherwise append it. -/
def insertH : HMap → String → String → HMap
  | [], k, v => [(k, v)]
  | (k0, v0) :: rest, k, v =>
    if k0 == k then (k0, v) :: rest else (k0, v0) :: insertH rest k v

/-- Python `headers[k]` as an `Option`. -/
def lookupH : HMap → String → Option String
  | [], _ => none
  | (k0, v0) :: rest, k => if k0 == k then some v0 else lookupH rest k

/-- Python `k in headers`. -/
def hasKey (m : HMap) (k : String) : Bool :=
  (lookupH m k).isSome

/-- The marker `-H` followed by a space and a single quote (source line 49). -/
def markerHsq : List Char := ['-', 'H', ' ', squo]

/-- The marker `-H` followed by a space and a double quote. -/
def markerHdq : List Char := ['-', 'H', ' ', dquo]

/-- The marker `-b` followed by a space and a single quote (source line 72). -/
def markerBsq : List Char := ['-', 'b', ' ', squo]

/-- The marker `-b` followed by a space and a double quote. -/
def markerBdq : List Char := ['-', 'b', ' ', dquo]

/-- Source lines 52-64 / 74-86: take the text after the 4-character marker
`marker` up to the closing `quote`, or the whole remainder of the fragment
when the closing quote is absent (`find` returning `-1`).  The branch guard
in `processLine` ensures the marker is present. -/
def extractAfter (line marker : List Char) (quote : Char) : List Char :=
  match findSub line marker with
  | none => []
  | some idx =>
    let start := idx + 4
    match findCharFrom line quote start with
    | none => line.drop start
    | some e => (line.drop start).take (e - start)

/-- Source lines 45-88: process one backslash-separated fragment, updating
the header map.  Header fragments (`-H`) are split at the first `:` into a
lower-cased key and a stripped value; cookie fragments (`-b`) are stored
under the key `"cookie"`. -/
def processLine (headers : HMap) (fragment : List Char) : HMap :=
  let line := trimChars fragment
  if containsSub line markerHsq || containsSub line markerHdq then
    let header_content :=
      if containsSub line markerHsq then extractAfter line markerHsq squo
      else extractAfter line markerHdq dquo
    if containsChar header_content ':' then
      let kv := splitFirstColon header_content
      insertH headers (String.mk (strToLowerL (trimChars kv.1)))
        (String.mk (trimChars kv.2))
    else headers
  else if containsSub line markerBsq || containsSub line markerBdq then
    let cookie_content :=
      if containsSub line markerBsq then extractAfter line markerBsq squo
      else extractAfter line markerBdq dquo
    insertH headers "cookie" (String.mk cookie_content)
  else headers

/-- Source lines 42-88: split the capture content on backslashes and scan
every fragment. -/
def scanHeaders (content : String) : HMap :=
  (splitOnChar content.toList bslash).foldl processLine []

/-- Source line 94. -/
def critical_headers : List String := ["authorization", "cookie"]

/-- Source lines 103-113: the fixed default header table. -/
def defaults : HMap :=
  [("accept", "*/*"),
   ("accept-language", "en-US,en;q=0.9"),
   ("content-type", "application/json"),
   ("origin", "https://music.youtube.com"),
   ("referer", "https://music.youtube.com/"),
   ("x-origin", "https://music.youtube.com"),
   ("x-youtube-bootstrap-logged-in", "true"),
   ("x-youtube-client-name", "67"),
   ("x-youtube-client-version", "1.20250811.03.00")]

/-- Source lines 115-117: insert each default in order when its key is
absent. -/
def fillAux : HMap → HMap → HMap
  | [], headers => headers
  | kv :: rest, headers =>
    fillAux rest (if hasKey headers kv.1 then headers else insertH headers kv.1 kv.2)

/-- Source lines 102-117. -/
def fillDefaults (headers : HMap) : HMap :=
  fillAux defaults headers

/-- Source lines 36-125, as a pure function of the capture-file content.
Returns `none` when a critical header is missing (lines 93-100), otherwise
the map completed with defaults (lines 102-120). -/
def extract_headers_from_curl (content : String) : Option HMap :=
  let headers := scanHeaders content
  let missing := critical_headers.filter (fun h => !(hasKey headers h))
  if missing.isEmpty then some (fillDefaults headers) else none

/-- Source lines 202-214: strip every line, keep the non-empty ones not
starting with the comment marker, in order. -/
def read_setlist_from_file (lines : List String) : List String :=
  lines.foldl
    (fun setlist line =>
      let l := strTrim line
      if !(l.isEmpty) && !(startsWithChar l.toList '#') then setlist ++ [l]
      else setlist)
    []

/-- A track candidate as returned by the remote search (source lines
159-163): `videoId`, `title`, and first artist name, modelled as total
fields of a typed record. -/
structure Track where
  videoId : String
  title : String
  artist : String
deriving DecidableEq

/-- Oracle for the remote API used by `create_playlist_from_setlist`:
`setupOk` abstracts the outcome of `setup_ytmusic` (client or `None`),
`createResult` the `create_playlist` call, `search` and `add` the per-song
calls; `Except.error` models a raised exception. -/
structure Env where
  setupOk : Bool
  createResult : Except Unit String
  search : String → Except Unit (List Track)
  add : String → String → Except Unit Unit

/-- Observable events of one run: console output and outgoing API calls,
in program order. -/
inductive Ev
  | createCall
  | printCreated (pid : String)
  | printSearching (i total : Nat) (song : String)
  | searchCall (song : String)
  | addCall (pid vid : String)
  | printAdded (artist title : String)
  | printNotFound (song : String)
  | printSongError (song : String)
  | printSummary (adds total : Nat) (failed : List String)
  | printFatal
deriving DecidableEq

/-- The loop state of source lines 148-175: the 1-based loop index, the
`successful_adds` counter, the `failed_songs` list, and the event trace. -/
structure LoopSt where
  i : Nat
  adds : Nat
  failed : List String
  evs : List Ev
deriving DecidableEq

/-- Source lines 152-175: one iteration of the per-song loop.  The
`try/except` around the body means a raised search or add maps to the
failure outcome instead of aborting. -/
def songStep (env : Env) (pid : String) (total : Nat) (st : LoopSt) (song : String) : LoopSt :=
  let evs1 := st.evs ++ [Ev.printSearching st.i total song, Ev.searchCall song]
  match env.search song with
  | Except.error _ =>
    ⟨st.i + 1, st.adds, st.failed ++ [song], evs1 ++ [Ev.printSongError song]⟩
  | Except.ok [] =>
    ⟨st.i + 1, st.adds, st.failed ++ [song], evs1 ++ [Ev.printNotFound song]⟩
  | Except.ok (t :: _) =>
    match env.add pid t.videoId with
    | Except.ok _ =>
      ⟨st.i + 1, st.adds + 1, st.failed,
        evs1 ++ [Ev.addCall pid t.videoId, Ev.printAdded t.artist t.title]⟩
    | Except.error _ =>
      ⟨st.i + 1, st.adds, st.failed ++ [song],
        evs1 ++ [Ev.addCall pid t.videoId, Ev.printSongError song]⟩

/-- The per-song loop (source lines 152-175). -/
def runSongs (env : Env) (pid : String) (total : Nat) : LoopSt → List String → LoopSt
  | st, [] => st
  | st, song :: rest => runSongs env pid total (songStep env pid total st song) rest

/-- Does the iteration for `song` take one of the failure paths (empty
search result, raised search, or raised add)? -/
def songFails (env : Env) (pid song : String) : Bool :=
  match env.search song with
  | Except.error _ => true
  | Except.ok [] => true
  | Except.ok (t :: _) =>
    match env.add pid t.videoId with
    | Except.error _ => true
    | Except.ok _ => false

/-- Source lines 127-190: returns the event trace and the Python return
value.  A failed setup returns `None` (lines 140-141); a raised
`create_playlist` propagates to the outer handler which reports and returns
`None` (lines 188-190); otherwise the loop runs and the summary (lines
177-184) is printed before returning `playlist_id` (line 186). -/
def create_playlist_from_setlist (env : Env) (setlist : List String)
    (playlist_name description : String) : List Ev × Option String :=
  if env.setupOk then
    match env.createResult with
    | Except.error _ => ([Ev.createCall, Ev.printFatal], none)
    | Except.ok playlist_id =>
      let r := runSongs env playlist_id setlist.length ⟨1, 0, [], []⟩ setlist
      ([Ev.createCall, Ev.printCreated playlist_id] ++ r.evs ++
        [Ev.printSummary r.adds setlist.length r.failed], some playlist_id)
  else ([], none)

/-- The file-system / remote state seen by `setup_ytmusic`: the optional
`paste.txt` content, an oracle flag for an I/O failure while reading it
(caught inside `extract_headers_from_curl`, which then returns `None`), an
oracle flag for whether the `YTMusic` constructor succeeds, and the current
`headers_auth.json` artifact content. -/
structure World where
  paste : Option String
  pasteReadFails : Bool
  clientOk : Bool
  artifact : Option HMap

/-- Source lines 11-34: returns the updated world and whether a client was
returned.  The artifact is overwritten exactly on a successful parse (line
19-20), before the `YTMusic` construction; every failure path falls through
to the instructions and returns `None`. -/
def setup_ytmusic (w : World) : World × Bool :=
  match w.paste with
  | none => (w, false)
  | some content =>
    if w.pasteReadFails then (w, false)
    else
      match extract_headers_from_curl content with
      | none => (w, false)
      | some headers =>
        (⟨w.paste, w.pasteReadFails, w.clientOk, some headers⟩, w.clientOk)

/-- Is an ASCII upper-case letter? (The model of "contains an upper-case
character" at the `Char` level.) -/
def isUpperAscii (c : Char) : Bool :=
  decide (65 ≤ c.toNat ∧ c.toNat ≤ 90)

/-- No character of the string is an ASCII upper-case letter. -/
def noUpperStr (s : String) : Bool :=
  s.toList.all (fun c => !(isUpperAscii c))

/-- Every key of the map is free of upper-case characters. -/
def allKeysLower (m : HMap) : Bool :=
  m.all (fun kv => noUpperStr kv.1)

/-! ## Association-list lemmas -/

theorem lookupH_insertH (m : HMap) (d v k : String) :
    lookupH (insertH m d v) k = if k = d then some v else lookupH m k := by
  induction m with
  | nil =>
    by_cases h : k = d
    · subst h
      simp [insertH, lookupH]
    · simp [insertH, lookupH, h, Ne.symm h]
  | cons hd tl ih =>
    obtain ⟨k0, v0⟩ := hd
    by_cases h1 : k0 = d
    · subst h1
      by_cases h2 : k = k0
      · subst h2
        simp [insertH, lookupH]
      · simp [insertH, lookupH, h2, Ne.symm h2]
    · by_cases h2 : k0 = k
      · subst h2
        simp [insertH, lookupH, h1]
      · simp [insertH, lookupH, h1, h2, ih]

theorem hasKey_insertH (m : HMap) (d v k : String) :
    hasKey (insertH m d v) k = (k == d || hasKey m k) := by
  unfold hasKey
  rw [lookupH_insertH]
  by_cases h : k = d <;> simp [h]

theorem fillAux_lookup_preserve (ds : HMap) (m : HMap) (k : String)
    (h : hasKey m k = true) : lookupH (fillAux ds m) k = lookupH m k := by
  induction ds generalizing m with
  | nil => rfl
  | cons kv rest ih =>
    obtain ⟨d, dv⟩ := kv
    unfold fillAux
    by_cases hd : hasKey m d = true
    · rw [if_pos hd]
      exact ih m h
    · rw [if_neg hd]
      have hkd : k ≠ d := by
        intro he
        subst he
        exact hd h
      have h1 : lookupH (insertH m d dv) k = lookupH m k := by
        rw [lookupH_insertH, if_neg hkd]
      have h2 : hasKey (insertH m d dv) k = true := by
        unfold hasKey
        rw [h1]
        exact h
      rw [ih (insertH m d dv) h2, h1]

theorem fillAux_hasKey_preserve (ds : HMap) (m : HMap) (k : String)
    (h : hasKey m k = true) : hasKey (fillAux ds m) k = true := by
  unfold hasKey
  rw [fillAux_lookup_preserve ds m k h]
  exact h

theorem fillAux_absent (ds : HMap) (m : HMap) (k v : String)
    (hnd : (ds.map Prod.fst).Nodup) (hmem : (k, v) ∈ ds)
    (habs : hasKey m k = false) : lookupH (fillAux ds m) k = some v := by
  induction ds generalizing m with
  | nil => cases hmem
  | cons kv rest ih =>
    obtain ⟨d, dv⟩ := kv
    unfold fillAux
    rcases List.mem_cons.mp hmem with heq | hmem2
    · injection heq with hk hv
      subst hk
      subst hv
      rw [if_neg (by rw [habs]; simp)]
      have h1 : lookupH (insertH m k v) k = some v := by
        rw [lookupH_insertH, if_pos rfl]
      have h2 : hasKey (insertH m k v) k = true := by
        unfold hasKey
        rw [h1]
        rfl
      rw [fillAux_lookup_preserve rest _ k h2, h1]
    · have hkd : k ≠ d := by
        intro he
        subst he
        have : k ∈ rest.map Prod.fst := List.mem_map.mpr ⟨(k, v), hmem2, rfl⟩
        exact (List.nodup_cons.mp hnd).1 this
      by_cases hd : hasKey m d = true
      · rw [if_pos hd]
        exact ih m (List.nodup_cons.mp hnd).2 hmem2 habs
      · rw [if_neg hd]
        have habs2 : hasKey (insertH m d dv) k = false := by
          rw [hasKey_insertH]
          simp [hkd, habs]
        exact ih (insertH m d dv) (List.nodup_cons.mp hnd).2 hmem2 habs2

theorem fillAux_mem_hasKey (ds : HMap) (m : HMap) (k v : String)
    (hnd : (ds.map Prod.fst).Nodup) (hmem : (k, v) ∈ ds) :
    hasKey (fillAux ds m) k = true := by
  by_cases h : hasKey m k = true
  · exact fillAux_hasKey_preserve ds m k h
  · have := fillAux_absent ds m k v hnd hmem (Bool.not_eq_true _ ▸ h)
    unfold hasKey
    rw [this]
    rfl

/-! ## Per-song loop lemmas -/

theorem runSongs_append (env : Env) (pid : String) (total : Nat)
    (xs ys : List String) (st : LoopSt) :
    runSongs env pid total st (xs ++ ys)
      = runSongs env pid total (runSongs env pid total st xs) ys := by
  induction xs generalizing st with
  | nil => rfl
  | cons x rest ih =>
    simp only [List.cons_append, runSongs]
    exact ih (songStep env pid total st x)

theorem songStep_counts (env : Env) (pid : String) (total : Nat)
    (st : LoopSt) (s : String) :
    (songStep env pid total st s).adds + (songStep env pid total st s).failed.length
      = st.adds + st.failed.length + 1 := by
  unfold songStep
  cases hs : env.search s with
  | error e => simp +arith
  | ok l =>
    cases l with
    | nil => simp +arith
    | cons t ts =>
      cases ha : env.add pid t.videoId with
      | error e => simp only [ha]; simp +arith
      | ok u => simp only [ha]; simp +arith

theorem runSongs_counts (env : Env) (pid : String) (total : Nat)
    (l : List String) (st : LoopSt) :
    (runSongs env pid total st l).adds + (runSongs env pid total st l).failed.length
      = st.adds + st.failed.length + l.length := by
  induction l generalizing st with
  | nil => rfl
  | cons s rest ih =>
    simp only [runSongs, List.length_cons]
    rw [ih (songStep env pid total st s), songStep_counts]
    omega

theorem songStep_evs_mono (env : Env) (pid : String) (total : Nat)
    (st : LoopSt) (s : String) (e : Ev) (h : e ∈ st.evs) :
    e ∈ (songStep env pid total st s).evs := by
  unfold songStep
  cases env.search s with
  | error _ => simp [List.mem_append, h]
  | ok l =>
    cases l with
    | nil => simp [List.mem_append, h]
    | cons t ts =>
      cases ha : env.add pid t.videoId with
      | error _ => simp only [ha]; simp [List.mem_append, h]
      | ok _ => simp only [ha]; simp [List.mem_append, h]

theorem songStep_searchCall (env : Env) (pid : String) (total : Nat)
    (st : LoopSt) (s : String) :
    Ev.searchCall s ∈ (songStep env pid total st s).evs := by
  unfold songStep
  cases env.search s with
  | error _ => simp
  | ok l =>
    cases l with
    | nil => simp
    | cons t ts =>
      cases ha : env.add pid t.videoId with
      | error _ => simp only [ha]; simp
      | ok _ => simp only [ha]; simp

theorem runSongs_evs_mono (env : Env) (pid : String) (total : Nat)
    (l : List String) (st : LoopSt) (e : Ev) (h : e ∈ st.evs) :
    e ∈ (runSongs env pid total st l).evs := by
  induction l generalizing st with
  | nil => exact h
  | cons s rest ih =>
    exact ih (songStep env pid total st s) (songStep_evs_mono env pid total st s e h)

theorem runSongs_searchCall (env : Env) (pid : String) (total : Nat)
    (l : List String) (st : LoopSt) (y : String) (h : y ∈ l) :
    Ev.searchCall y ∈ (runSongs env pid total st l).evs := by
  induction l generalizing st with
  | nil => cases h
  | cons s rest ih =>
    rcases List.mem_cons.mp h with heq | hmem
    · subst heq
      exact runSongs_evs_mono env pid total rest _ _
        (songStep_searchCall env pid total st y)
    · exact ih (songStep env pid total st s) hmem

theorem songStep_failed_mono (env : Env) (pid : String) (total : Nat)
    (st : LoopSt) (s x : String) (h : x ∈ st.failed) :
    x ∈ (songStep env pid total st s).failed := by
  unfold songStep
  cases env.search s with
  | error _ => simp [List.mem_append, h]
  | ok l =>
    cases l with
    | nil => simp [List.mem_append, h]
    | cons t ts =>
      cases ha : env.add pid t.videoId with
      | error _ => simp only [ha]; simp [List.mem_append, h]
      | ok _ => simp only [ha]; simp [h]

theorem runSongs_failed_mono (env : Env) (pid : String) (total : Nat)
    (l : List String) (st : LoopSt) (x : String) (h : x ∈ st.failed) :
    x ∈ (runSongs env pid total st l).failed := by
  induction l generalizing st with
  | nil => exact h
  | cons s rest ih =>
    exact ih (songStep env pid total st s) (songStep_failed_mono env pid total st s x h)

theorem songStep_fail (env : Env) (pid : String) (total : Nat)
    (st : LoopSt) (s : String) (h : songFails env pid s = true) :
    (songStep env pid total st s).failed = st.failed ++ [s]
      ∧ (songStep env pid total st s).adds = st.adds := by
  unfold songFails at h
  unfold songStep
  cases hs : env.search s with
  | error e => simp
  | ok l =>
    cases l with
    | nil => simp
    | cons t ts =>
      rw [hs] at h
      cases ha : env.add pid t.videoId with
      | error e => simp only [ha]; simp
      | ok u =>
        simp only [ha] at h
        cases h

/-! ## Character-case lemmas -/

theorem toNat_charOfNat_valid (n : Nat) (h : n.isValidChar) :
    (Char.ofNat n).toNat = n := by
  rw [Char.ofNat, dif_pos h]
  rfl

theorem isUpperAscii_toLower (c : Char) : isUpperAscii (Char.toLower c) = false := by
  unfold Char.toLower
  by_cases h : c.toNat ≥ 65 ∧ c.toNat ≤ 90
  · rw [if_pos h]
    have hv : (c.toNat + 32).isValidChar := Or.inl (by omega)
    unfold isUpperAscii
    rw [toNat_charOfNat_valid _ hv]
    simp only [decide_eq_false_iff_not]
    omega
  · rw [if_neg h]
    unfold isUpperAscii
    simp only [decide_eq_false_iff_not]
    omega

theorem allKeysLower_insertH (m : HMap) (k v : String)
    (hm : allKeysLower m = true) (hk : noUpperStr k = true) :
    allKeysLower (insertH m k v) = true := by
  induction m with
  | nil => simp [insertH, allKeysLower, hk]
  | cons hd tl ih =>
    obtain ⟨k0, v0⟩ := hd
    simp only [allKeysLower, List.all_cons, Bool.and_eq_true] at hm
    by_cases h : k0 = k
    · subst h
      simp [insertH, allKeysLower, hm.1, hm.2]
    · have hb : (k0 == k) = false := beq_eq_false_iff_ne.mpr h
      have := ih hm.2
      simp only [allKeysLower] at this
      simp [insertH, hb, allKeysLower, hm.1, this]

theorem noUpperStr_lowered (l : List Char) :
    noUpperStr (String.mk (strToLowerL l)) = true := by
  unfold noUpperStr strToLowerL
  have : (String.mk (l.map Char.toLower)).toList = l.map Char.toLower := rfl
  rw [this, List.all_map]
  apply List.all_eq_true.mpr
  intro c _
  simp [isUpperAscii_toLower]

theorem processLine_lower (m : HMap) (frag : List Char)
    (hm : allKeysLower m = true) : allKeysLower (processLine m frag) = true := by
  simp only [processLine]
  split
  · split
    · split
      · exact allKeysLower_insertH m _ _ hm (noUpperStr_lowered _)
      · exact hm
    · split
      · exact allKeysLower_insertH m _ _ hm (noUpperStr_lowered _)
      · exact hm
  · split
    · exact allKeysLower_insertH m _ _ hm (by decide)
    · exact hm

theorem scanHeaders_lower (content : String) :
    allKeysLower (scanHeaders content) = true := by
  unfold scanHeaders
  generalize splitOnChar content.toList bslash = frags
  have key : ∀ (fs : List (List Char)) (m : HMap), allKeysLower m = true →
      allKeysLower (fs.foldl processLine m) = true := by
    intro fs
    induction fs with
    | nil => intro m hm; exact hm
    | cons f rest ih =>
      intro m hm
      exact ih (processLine m f) (processLine_lower m f hm)
  exact key frags [] rfl

theorem fillAux_lower (ds : HMap) (m : HMap)
    (hm : allKeysLower m = true) (hds : ∀ kv ∈ ds, noUpperStr kv.1 = true) :
    allKeysLower (fillAux ds m) = true := by
  induction ds generalizing m with
  | nil => exact hm
  | cons kv rest ih =>
    unfold fillAux
    have hm2 : allKeysLower (if hasKey m kv.1 then m else insertH m kv.1 kv.2) = true := by
      split
      · exact hm
      · exact allKeysLower_insertH m kv.1 kv.2 hm (hds kv (List.mem_cons_self kv rest))
    exact ih _ hm2 (fun kv2 h2 => hds kv2 (List.mem_cons_of_mem kv h2))

theorem read_setlist_foldl (lines : List String) (acc : List String) :
    lines.foldl
      (fun setlist line =>
        let l := strTrim line
        if !(l.isEmpty) && !(startsWithChar l.toList '#') then setlist ++ [l]
        else setlist)
      acc
    = acc ++ (lines.map strTrim).filter
        (fun s => !(s.isEmpty) && !(startsWithChar s.toList '#')) := by
  induction lines generalizing acc with
  | nil => simp
  | cons l ls ih =>
    simp only [List.foldl_cons, List.map_cons, List.filter_cons]
    by_cases h : (!(strTrim l).isEmpty && !(startsWithChar (strTrim l).toList '#')) = true
    · rw [ih]
      simp only [String.toList] at h
      simp [h]
    · rw [ih]
      simp only [String.toList] at h
      simp only [Bool.not_eq_true] at h
      simp [h]

/-! ## Concrete inputs used by witnesses -/

/-- A one-character string holding the single quote. -/
def sqS : String := String.mk [squo]

/-- A one-character string holding the backslash. -/
def bsS : String := String.mk [bslash]

/-- A capture text carrying both an authorization header fragment and a
cookie fragment. -/
def capOK : String :=
  "curl -H " ++ sqS ++ "Authorization: SAPISID abc" ++ sqS ++ " " ++ bsS ++
  " -b " ++ sqS ++ "CONSENT=yes+1" ++ sqS

/-- An environment whose search finds nothing for the song `"bad"` and one
track for every other query, with every add succeeding. -/
def envW : Env :=
  ⟨true, Except.ok "PL",
   fun s => if s == "bad" then Except.ok [] else Except.ok [⟨"vid1", "Title", "Artist"⟩],
   fun _ _ => Except.ok ()⟩

/-! ## Claims -/

/-- C1: for every Song Query sequence, once the per-song loop
(`runSongs`, started from the initial state of source lines 148-152)
completes, the reported successes (`adds`) plus the reported failures
(length of `failed`) equal the length of the input sequence. -/
theorem c1_success_failure_partition (env : Env) (pid : String) (setlist : List String) :
    (runSongs env pid setlist.length ⟨1, 0, [], []⟩ setlist).adds
      + (runSongs env pid setlist.length ⟨1, 0, [], []⟩ setlist).failed.length
      = setlist.length := by
  have h := runSongs_counts env pid setlist.length setlist ⟨1, 0, [], []⟩
  simpa using h

/-- C2: a failure at one position (empty search result, raised search, or
raised add) does not abort the batch: the failing step only appends the
query to the failed list and leaves the success counter unchanged, the loop
over `xs ++ s :: ys` continues through `ys` from the post-failure state, the
failing query ends up in the final failed list, and every later song is
still searched. -/
theorem c2_failure_does_not_abort (env : Env) (pid : String) (total : Nat)
    (s : String) (xs ys : List String) (hfail : songFails env pid s = true) :
    (∀ st : LoopSt, (songStep env pid total st s).failed = st.failed ++ [s]
        ∧ (songStep env pid total st s).adds = st.adds)
    ∧ runSongs env pid total ⟨1, 0, [], []⟩ (xs ++ s :: ys)
        = runSongs env pid total
            (songStep env pid total (runSongs env pid total ⟨1, 0, [], []⟩ xs) s) ys
    ∧ s ∈ (runSongs env pid total ⟨1, 0, [], []⟩ (xs ++ s :: ys)).failed
    ∧ ∀ y ∈ ys, Ev.searchCall y ∈ (runSongs env pid total ⟨1, 0, [], []⟩ (xs ++ s :: ys)).evs := by
  refine ⟨fun st => songStep_fail env pid total st s hfail, ?_, ?_, ?_⟩
  · rw [runSongs_append]
    rfl
  · rw [runSongs_append env pid total xs (s :: ys)]
    show s ∈ (runSongs env pid total
      (songStep env pid total (runSongs env pid total ⟨1, 0, [], []⟩ xs) s) ys).failed
    apply runSongs_failed_mono
    rw [(songStep_fail env pid total _ s hfail).1]
    simp
  · intro y hy
    exact runSongs_searchCall env pid total (xs ++ s :: ys) ⟨1, 0, [], []⟩ y
      (by simp [hy])

/-- Witness for C2 at a concrete environment: the song `"bad"` fails (empty
search result) between `"a"` and `"b"`. -/
theorem c2_failure_does_not_abort_witness :
    songFails envW "PL" "bad" = true
    ∧ ((∀ st : LoopSt, (songStep envW "PL" 3 st "bad").failed = st.failed ++ ["bad"]
          ∧ (songStep envW "PL" 3 st "bad").adds = st.adds)
      ∧ runSongs envW "PL" 3 ⟨1, 0, [], []⟩ (["a"] ++ "bad" :: ["b"])
          = runSongs envW "PL" 3
              (songStep envW "PL" 3 (runSongs envW "PL" 3 ⟨1, 0, [], []⟩ ["a"]) "bad") ["b"]
      ∧ "bad" ∈ (runSongs envW "PL" 3 ⟨1, 0, [], []⟩ (["a"] ++ "bad" :: ["b"])).failed
      ∧ ∀ y ∈ ["b"], Ev.searchCall y
          ∈ (runSongs envW "PL" 3 ⟨1, 0, [], []⟩ (["a"] ++ "bad" :: ["b"])).evs) :=
  ⟨rfl, c2_failure_does_not_abort envW "PL" 3 "bad" ["a"] ["b"] rfl⟩

/-- C3: `read_setlist_from_file` returns exactly the stripped lines that are
non-empty and do not start with the comment marker, in original order; in
particular the four-line example file yields the two song queries. -/
theorem c3_setlist_reader_filters :
    (∀ lines : List String,
      read_setlist_from_file lines
        = (lines.map strTrim).filter
            (fun s => !(s.isEmpty) && !(startsWithChar s.toList '#')))
    ∧ read_setlist_from_file
        ["Oasis - Wonderwall", "", "# comment", "Billy Idol - White Wedding"]
        = ["Oasis - Wonderwall", "Billy Idol - White Wedding"] := by
  constructor
  · intro lines
    unfold read_setlist_from_file
    rw [read_setlist_foldl]
    simp
  · decide

/-- C4: when the scan of the fragments yields no `authorization` entry or no
`cookie` entry, `extract_headers_from_curl` returns no Header Map at all
(source lines 93-100), so in particular no default filling happens on the
failure path. -/
theorem c4_missing_critical_fails (content : String)
    (h : hasKey (scanHeaders content) "authorization" = false
      ∨ hasKey (scanHeaders content) "cookie" = false) :
    extract_headers_from_curl content = none := by
  unfold extract_headers_from_curl critical_headers
  rcases h with h | h <;> simp [h]

/-- Witness for C4: a capture text with no markers at all has neither
critical key, and extraction fails. -/
theorem c4_missing_critical_fails_witness :
    hasKey (scanHeaders "hello") "authorization" = false
    ∧ extract_headers_from_curl "hello" = none :=
  ⟨rfl, c4_missing_critical_fails "hello" (Or.inl rfl)⟩

/-- C5: when the scan yields both critical entries, extraction succeeds with
the scanned map completed by the default table (source lines 102-120):
every default key is present in the result, a key already scanned keeps its
scanned value, and a key absent from the scan receives the default value. -/
theorem c5_defaults_fill_only_missing (content : String)
    (h1 : hasKey (scanHeaders content) "authorization" = true)
    (h2 : hasKey (scanHeaders content) "cookie" = true) :
    extract_headers_from_curl content = some (fillDefaults (scanHeaders content))
    ∧ ∀ kv ∈ defaults,
        hasKey (fillDefaults (scanHeaders content)) kv.1 = true
        ∧ (hasKey (scanHeaders content) kv.1 = true →
            lookupH (fillDefaults (scanHeaders content)) kv.1
              = lookupH (scanHeaders content) kv.1)
        ∧ (hasKey (scanHeaders content) kv.1 = false →
            lookupH (fillDefaults (scanHeaders content)) kv.1 = some kv.2) := by
  constructor
  · unfold extract_headers_from_curl critical_headers
    simp [h1, h2]
  · intro kv hmem
    have hnd : (defaults.map Prod.fst).Nodup := by decide
    refine ⟨?_, ?_, ?_⟩
    · exact fillAux_mem_hasKey defaults _ kv.1 kv.2 hnd hmem
    · intro hk
      exact fillAux_lookup_preserve defaults _ kv.1 hk
    · intro hk
      exact fillAux_absent defaults _ kv.1 kv.2 hnd hmem hk

/-- Witness for C5 at the concrete capture `capOK`, which carries an
authorization header fragment and a cookie fragment. -/
theorem c5_defaults_fill_only_missing_witness :
    hasKey (scanHeaders capOK) "authorization" = true
    ∧ hasKey (scanHeaders capOK) "cookie" = true
    ∧ (extract_headers_from_curl capOK = some (fillDefaults (scanHeaders capOK))
      ∧ ∀ kv ∈ defaults,
          hasKey (fillDefaults (scanHeaders capOK)) kv.1 = true
          ∧ (hasKey (scanHeaders capOK) kv.1 = true →
              lookupH (fillDefaults (scanHeaders capOK)) kv.1
                = lookupH (scanHeaders capOK) kv.1)
          ∧ (hasKey (scanHeaders capOK) kv.1 = false →
              lookupH (fillDefaults (scanHeaders capOK)) kv.1 = some kv.2)) :=
  ⟨rfl, rfl, c5_defaults_fill_only_missing capOK rfl rfl⟩

/-- Environment for the C6 counterexample: playlist creation succeeds, the
query `"hit"` finds a track and is added, every other query finds nothing. -/
def envCE : Env :=
  ⟨true, Except.ok "PLID",
   fun s => if s == "hit" then Except.ok [⟨"v1", "t", "a"⟩] else Except.ok [],
   fun _ _ => Except.ok ()⟩

/-- Counterexample to C6 as stated: two runs whose Playlist Results differ
(different success counts and different failed lists) return the very same
value to the caller, so the return value is merely the playlist identifier
and cannot carry the counts or the failed list. -/
theorem c6_counterexample :
    (create_playlist_from_setlist envCE ["hit"] "n" "d").2
      = (create_playlist_from_setlist envCE ["miss"] "n" "d").2
    ∧ (runSongs envCE "PLID" 1 ⟨1, 0, [], []⟩ ["hit"]).adds
        ≠ (runSongs envCE "PLID" 1 ⟨1, 0, [], []⟩ ["miss"]).adds
    ∧ (runSongs envCE "PLID" 1 ⟨1, 0, [], []⟩ ["hit"]).failed
        ≠ (runSongs envCE "PLID" 1 ⟨1, 0, [], []⟩ ["miss"]).failed := by
  decide

/-- C6 as amended: when the loop completes, the function returns to its
caller only the remote playlist identifier (source line 186); the counts of
attempted and succeeded songs and the ordered failed-query list are printed
in the end-of-run summary (source lines 177-184), not returned. -/
theorem c6_amended_returns_id_prints_summary (env : Env) (setlist : List String)
    (nm desc pid : String) (h1 : env.setupOk = true)
    (h2 : env.createResult = Except.ok pid) :
    (create_playlist_from_setlist env setlist nm desc).2 = some pid
    ∧ Ev.printSummary (runSongs env pid setlist.length ⟨1, 0, [], []⟩ setlist).adds
        setlist.length (runSongs env pid setlist.length ⟨1, 0, [], []⟩ setlist).failed
        ∈ (create_playlist_from_setlist env setlist nm desc).1 := by
  unfold create_playlist_from_setlist
  rw [h1, h2]
  constructor
  · rfl
  · simp

/-- Witness for the amended C6 at the concrete environment `envCE`. -/
theorem c6_amended_returns_id_prints_summary_witness :
    (create_playlist_from_setlist envCE ["hit", "miss"] "n" "d").2 = some "PLID"
    ∧ Ev.printSummary (runSongs envCE "PLID" 2 ⟨1, 0, [], []⟩ ["hit", "miss"]).adds
        2 (runSongs envCE "PLID" 2 ⟨1, 0, [], []⟩ ["hit", "miss"]).failed
        ∈ (create_playlist_from_setlist envCE ["hit", "miss"] "n" "d").1 :=
  c6_amended_returns_id_prints_summary envCE ["hit", "miss"] "n" "d" "PLID" rfl rfl

/-- C7: when the initial `create_playlist` call raises, the run is fatal:
the error is reported, the function returns no identifier, and no per-song
search or add call is performed (source lines 145, 188-190). -/
theorem c7_create_failure_fatal (env : Env) (setlist : List String)
    (nm desc : String) (h1 : env.setupOk = true)
    (h2 : env.createResult = Except.error ()) :
    (create_playlist_from_setlist env setlist nm desc).2 = none
    ∧ (create_playlist_from_setlist env setlist nm desc).1
        = [Ev.createCall, Ev.printFatal]
    ∧ (∀ s, Ev.searchCall s ∉ (create_playlist_from_setlist env setlist nm desc).1)
    ∧ (∀ p v, Ev.addCall p v ∉ (create_playlist_from_setlist env setlist nm desc).1) := by
  unfold create_playlist_from_setlist
  rw [h1, h2]
  refine ⟨rfl, rfl, ?_, ?_⟩
  · intro s
    simp
  · intro p v
    simp

/-- Environment for the C7 witness: setup succeeds, playlist creation
raises. -/
def envFail : Env :=
  ⟨true, Except.error (), fun _ => Except.ok [], fun _ _ => Except.ok ()⟩

/-- Witness for C7 at the concrete environment `envFail`. -/
theorem c7_create_failure_fatal_witness :
    (create_playlist_from_setlist envFail ["x", "y"] "n" "d").2 = none
    ∧ (create_playlist_from_setlist envFail ["x", "y"] "n" "d").1
        = [Ev.createCall, Ev.printFatal]
    ∧ (∀ s, Ev.searchCall s ∉ (create_playlist_from_setlist envFail ["x", "y"] "n" "d").1)
    ∧ (∀ p v, Ev.addCall p v ∉ (create_playlist_from_setlist envFail ["x", "y"] "n" "d").1) :=
  c7_create_failure_fatal envFail ["x", "y"] "n" "d" rfl rfl

/-- A header fragment with an opening quote but no closing quote. -/
def f1W : List Char := ("-H " ++ sqS ++ "X-Test: some value").toList

/-- A cookie fragment with an opening quote but no closing quote. -/
def f2W : List Char := ("-b " ++ sqS ++ "mycookie").toList

/-- C8: a fragment whose header-flag or cookie-flag marker has an opening
quote with no matching closing quote is parsed tolerantly, not rejected:
the entire remainder of the fragment after the opening quote becomes the
value, and a header fragment is still split at the first `:` into a
lower-cased key and trimmed value (source lines 54-55, 61-62, 76-77,
83-84). -/
theorem c8_unclosed_quote_degraded_parse (m : HMap) (f1 f2 : List Char) (i1 i2 : Nat)
    (h1 : findSub (trimChars f1) markerHsq = some i1)
    (h2 : findCharFrom (trimChars f1) squo (i1 + 4) = none)
    (h3 : containsChar ((trimChars f1).drop (i1 + 4)) ':' = true)
    (h4 : containsSub (trimChars f2) markerHsq = false)
    (h5 : containsSub (trimChars f2) markerHdq = false)
    (h6 : findSub (trimChars f2) markerBsq = some i2)
    (h7 : findCharFrom (trimChars f2) squo (i2 + 4) = none) :
    processLine m f1
      = insertH m
          (String.mk (strToLowerL (trimChars
            (splitFirstColon ((trimChars f1).drop (i1 + 4))).1)))
          (String.mk (trimChars
            (splitFirstColon ((trimChars f1).drop (i1 + 4))).2))
    ∧ processLine m f2
      = insertH m "cookie" (String.mk ((trimChars f2).drop (i2 + 4))) := by
  constructor
  · have hc1 : containsSub (trimChars f1) markerHsq = true := by
      unfold containsSub
      rw [h1]
      rfl
    simp only [processLine, extractAfter, hc1, h1, h2, h3, Bool.true_or, if_true]
  · have hc2 : containsSub (trimChars f2) markerBsq = true := by
      unfold containsSub
      rw [h6]
      rfl
    simp only [processLine, extractAfter, h4, h5, hc2, h6, h7, Bool.false_or,
      Bool.or_false, Bool.true_or, if_true, if_false]
    simp

/-- Witness for C8 at the concrete fragments `f1W` and `f2W`, both with an
unclosed quote. -/
theorem c8_unclosed_quote_degraded_parse_witness :
    findSub (trimChars f1W) markerHsq = some 0
    ∧ findCharFrom (trimChars f1W) squo 4 = none
    ∧ containsChar ((trimChars f1W).drop 4) ':' = true
    ∧ containsSub (trimChars f2W) markerHsq = false
    ∧ containsSub (trimChars f2W) markerHdq = false
    ∧ findSub (trimChars f2W) markerBsq = some 0
    ∧ findCharFrom (trimChars f2W) squo 4 = none
    ∧ (processLine [] f1W
        = insertH []
            (String.mk (strToLowerL (trimChars
              (splitFirstColon ((trimChars f1W).drop 4)).1)))
            (String.mk (trimChars
              (splitFirstColon ((trimChars f1W).drop 4)).2))
      ∧ processLine [] f2W
        = insertH [] "cookie" (String.mk ((trimChars f2W).drop 4))) :=
  ⟨rfl, rfl, rfl, rfl, rfl, rfl, rfl,
   c8_unclosed_quote_degraded_parse [] f1W f2W 0 0 rfl rfl rfl rfl rfl rfl rfl⟩

/-- C9: the Credential Artifact is written exactly when the capture parse
succeeds.  When `paste.txt` is absent, or reading it fails (the exception is
caught inside the parser, which returns `None`), or the parse yields no
Header Map, `setup_ytmusic` returns no client and leaves the artifact
untouched; on a successful parse the artifact is overwritten with the new
Header Map before the client construction, whose outcome only decides
whether a client is returned. -/
theorem c9_artifact_written_iff_parse (w : World) :
    (w.paste = none → setup_ytmusic w = (w, false))
    ∧ (w.pasteReadFails = true →
        (setup_ytmusic w).1 = w ∧ (setup_ytmusic w).2 = false)
    ∧ (∀ content, w.paste = some content → w.pasteReadFails = false →
        extract_headers_from_curl content = none → setup_ytmusic w = (w, false))
    ∧ (∀ content mh, w.paste = some content → w.pasteReadFails = false →
        extract_headers_from_curl content = some mh →
        (setup_ytmusic w).1.artifact = some mh
        ∧ ((setup_ytmusic w).2 = true ↔ w.clientOk = true)) := by
  obtain ⟨p, rf, co, art⟩ := w
  refine ⟨?_, ?_, ?_, ?_⟩
  · intro h
    have hp : p = none := h
    subst hp
    rfl
  · intro h
    have hr : rf = true := h
    subst hr
    cases p with
    | none => exact ⟨rfl, rfl⟩
    | some c => exact ⟨rfl, rfl⟩
  · intro content hp hrf hex
    have hp2 : p = some content := hp
    subst hp2
    have hr : rf = false := hrf
    subst hr
    simp [setup_ytmusic, hex]
  · intro content mh hp hrf hex
    have hp2 : p = some content := hp
    subst hp2
    have hr : rf = false := hrf
    subst hr
    simp [setup_ytmusic, hex]

/-- World with no capture file. -/
def wA : World := ⟨none, false, true, some [("k", "v")]⟩

/-- World where reading the capture file raises. -/
def wB : World := ⟨some capOK, true, true, none⟩

/-- World whose capture text parses to no Header Map. -/
def wC : World := ⟨some "hello", false, true, some [("old", "x")]⟩

/-- World with a good capture but a failing client constructor. -/
def wD : World := ⟨some capOK, false, false, none⟩

/-- Witness for C9 at four concrete worlds covering all four cases. -/
theorem c9_artifact_written_iff_parse_witness :
    setup_ytmusic wA = (wA, false)
    ∧ ((setup_ytmusic wB).1 = wB ∧ (setup_ytmusic wB).2 = false)
    ∧ setup_ytmusic wC = (wC, false)
    ∧ ((setup_ytmusic wD).1.artifact = some (fillDefaults (scanHeaders capOK))
        ∧ ((setup_ytmusic wD).2 = true ↔ wD.clientOk = true)) :=
  ⟨(c9_artifact_written_iff_parse wA).1 rfl,
   (c9_artifact_written_iff_parse wB).2.1 rfl,
   (c9_artifact_written_iff_parse wC).2.2.1 "hello" rfl rfl rfl,
   (c9_artifact_written_iff_parse wD).2.2.2 capOK (fillDefaults (scanHeaders capOK))
     rfl rfl rfl⟩

/-- C10: every key of a Header Map successfully returned by
`extract_headers_from_curl` is lower-case: parsed header names are
lower-cased before storage (source line 69), the cookie entry uses the
literal key `cookie` (line 88), and every default key is lower-case
(lines 103-113). -/
theorem c10_result_keys_lowercase (content : String) (m : HMap)
    (h : extract_headers_from_curl content = some m) : allKeysLower m = true := by
  simp only [extract_headers_from_curl] at h
  split at h
  · injection h with h2
    subst h2
    exact fillAux_lower defaults _ (scanHeaders_lower content) (by decide)
  · cases h

/-- Witness for C10 at the concrete capture `capOK`. -/
theorem c10_result_keys_lowercase_witness :
    extract_headers_from_curl capOK = some (fillDefaults (scanHeaders capOK))
    ∧ allKeysLower (fillDefaults (scanHeaders capOK)) = true :=
  ⟨rfl, c10_result_keys_lowercase capOK (fillDefaults (scanHeaders capOK)) rfl⟩
